import Mathlib

set_option maxHeartbeats 1000000

/-!
Shallow embedding of `src/python/kserve/kserve/protocol/rest/openai/openai_model.py`.

The file embeds the two behavioural components of that module:

* `AsyncMappingIterator` — an adapter wrapping an underlying async producer.
  Its `__anext__` pulls a raw item from the producer, applies `mapper`, and
  (when `skip_none` is set) keeps pulling while the mapped item is Python
  `None`.  The body of the inner `next()` helper runs under
  `except Exception as e:` which, if a `close` action is registered, invokes
  it and then re-raises `e`.  Two Python facts are embedded faithfully:
  `StopAsyncIteration` is a subclass of `Exception`, so normal exhaustion of
  the producer is also caught by that handler; and an exception raised by the
  close action itself replaces the original one (the `raise e` statement is
  never reached).

* `OpenAIModel.__init__` — sets `self.ready = True` after calling the base
  constructor.

The underlying producer is modelled as a deterministic script: a list of
pending `__anext__` results consumed head-first, followed by a `tail` result
repeated forever once the script is spent.  The `skip_none` loop of
`__anext__` is modelled with fuel; `PullOutcome.spin` marks fuel exhaustion
(the Python loop simply does not terminate in that case).
-/

/-- One result of calling the underlying producer's `__anext__`: a raw item,
a `StopAsyncIteration` (end of sequence), or a raised exception `e`. -/
inductive PullResult (α ε : Type) where
  | item (a : α)
  | stop
  | error (e : ε)
deriving DecidableEq

/-- Observable events of the adapter, in order of occurrence: an item yielded
to the caller, an invocation of the registered close action, the
end-of-sequence signal escaping to the caller, or an exception escaping to
the caller. -/
inductive Ev (β ε : Type) where
  | yieldItem (b : Option β)
  | closeCall
  | stopSignal
  | fail (e : ε)
deriving DecidableEq

/-- An exception in flight inside `__anext__`.  Python's `except Exception`
catches both `StopAsyncIteration` and ordinary exceptions, so both live in
this type. -/
inductive Exc (ε : Type) where
  | stopAsyncIteration
  | exc (e : ε)
deriving DecidableEq

/-- Result of the inner `next()` helper of `__anext__`: either the mapped
item (`none` is Python `None`) or an exception propagating out. -/
inductive InnerRes (β ε : Type) where
  | ok (b : Option β)
  | raised (x : Exc ε)
deriving DecidableEq

/-- Construction-time fields of `AsyncMappingIterator.__init__`.
`mapper` may itself raise (`Except.error`) and returns an `Option β` whose
`none` is Python `None`.  `close` is the optional close action: `none` when
no action was registered, `some r` an action whose each invocation returns
`r` (`Except.error c` models the action raising `c`).  `tail` is the
producer's behaviour once its script is spent; the script itself is threaded
through `anext` as the mutable cursor. -/
structure AsyncMappingIterator (α β ε : Type) where
  mapper : α → Except ε (Option β)
  skip_none : Bool
  close : Option (Except ε Unit)
  tail : PullResult α ε

/-- One call to `self.iterator.__anext__()`: consume the script head, or the
`tail` behaviour once the script is spent. -/
def producerNext (it : AsyncMappingIterator α β ε) (s : List (PullResult α ε)) :
    PullResult α ε × List (PullResult α ε) :=
  match s with
  | [] => (it.tail, [])
  | r :: rest => (r, rest)

/-- The `except Exception as e:` handler of the inner `next()`: when a close
action is registered it is invoked (event `Ev.closeCall`); if that invocation
itself raises `c`, then `c` becomes the propagating exception (the `raise e`
is never reached); otherwise the original exception is re-raised unchanged. -/
def handleExc (close : Option (Except ε Unit)) (x : Exc ε) :
    Exc ε × List (Ev β ε) :=
  match close with
  | none => (x, [])
  | some (Except.ok _) => (x, [Ev.closeCall])
  | some (Except.error c) => (Exc.exc c, [Ev.closeCall])

/-- The inner `next()` of `__anext__`:
`return self.mapper(await self.iterator.__anext__())` under
`except Exception as e:`.  A producer exception, the producer's
`StopAsyncIteration`, and a mapper exception are all caught by the handler. -/
def anextInner (it : AsyncMappingIterator α β ε) (s : List (PullResult α ε)) :
    InnerRes β ε × List (PullResult α ε) × List (Ev β ε) :=
  match producerNext it s with
  | (PullResult.item a, s1) =>
    match it.mapper a with
    | Except.ok b => (InnerRes.ok b, s1, [])
    | Except.error e =>
      match handleExc it.close (Exc.exc e) with
      | (x, evs) => (InnerRes.raised x, s1, evs)
  | (PullResult.stop, s1) =>
    match handleExc it.close Exc.stopAsyncIteration with
    | (x, evs) => (InnerRes.raised x, s1, evs)
  | (PullResult.error e, s1) =>
    match handleExc it.close (Exc.exc e) with
    | (x, evs) => (InnerRes.raised x, s1, evs)

/-- The caller-visible outcome of one `__anext__` call: an item returned
(possibly Python `None` when `skip_none` is false), a `StopAsyncIteration`
ending the iteration, an exception raised to the caller, or `spin` when the
fuel bound on the `skip_none` loop ran out. -/
inductive PullOutcome (β ε : Type) where
  | yieldItem (b : Option β)
  | stopIter
  | raised (e : ε)
  | spin
deriving DecidableEq

/-- `AsyncMappingIterator.__anext__`: run the inner `next()`; a propagating
`StopAsyncIteration` stops the iteration, any other propagating exception
reaches the caller; otherwise, when `skip_none` is set, pull again while the
mapped item is Python `None`.  Returns the outcome, the remaining producer
script, and the events of this call. -/
def anext (it : AsyncMappingIterator α β ε) :
    Nat → List (PullResult α ε) →
      PullOutcome β ε × List (PullResult α ε) × List (Ev β ε)
  | 0, s => (PullOutcome.spin, s, [])
  | fuel + 1, s =>
    match anextInner it s with
    | (InnerRes.raised Exc.stopAsyncIteration, s1, evs) =>
      (PullOutcome.stopIter, s1, evs)
    | (InnerRes.raised (Exc.exc e), s1, evs) => (PullOutcome.raised e, s1, evs)
    | (InnerRes.ok b, s1, evs) =>
      if it.skip_none && b.isNone then
        match anext it fuel s1 with
        | (o, s2, evs2) => (o, s2, evs ++ evs2)
      else (PullOutcome.yieldItem b, s1, evs)

/-- How a full iteration of the adapter ended: normal end-of-sequence, a
propagated failure, or one of the fuel bounds ran out. -/
inductive DriveEnd (ε : Type) where
  | stopped
  | failed (e : ε)
  | fuelOut
deriving DecidableEq

/-- A caller iterating the adapter to completion (`async for`): pull with
`anext` until the outcome is not an item, recording the full event trace.
`fuel` bounds each pull's `skip_none` loop, the `Nat` argument bounds the
number of pulls. -/
def drive (it : AsyncMappingIterator α β ε) (fuel : Nat) :
    Nat → List (PullResult α ε) →
      List (Ev β ε) × DriveEnd ε × List (PullResult α ε)
  | 0, s => ([], DriveEnd.fuelOut, s)
  | n + 1, s =>
    match anext it fuel s with
    | (PullOutcome.yieldItem b, s1, evs) =>
      match drive it fuel n s1 with
      | (evs2, d, s2) => (evs ++ Ev.yieldItem b :: evs2, d, s2)
    | (PullOutcome.stopIter, s1, evs) => (evs ++ [Ev.stopSignal], DriveEnd.stopped, s1)
    | (PullOutcome.raised e, s1, evs) => (evs ++ [Ev.fail e], DriveEnd.failed e, s1)
    | (PullOutcome.spin, s1, evs) => (evs, DriveEnd.fuelOut, s1)

/-- A caller performing a fixed number of `__anext__` calls regardless of
earlier outcomes (repeated pulls after failure or exhaustion included):
the list of outcomes, the concatenated event trace, and the final script. -/
def runPulls (it : AsyncMappingIterator α β ε) (fuel : Nat) :
    Nat → List (PullResult α ε) →
      List (PullOutcome β ε) × List (Ev β ε) × List (PullResult α ε)
  | 0, s => ([], [], s)
  | n + 1, s =>
    match anext it fuel s with
    | (o, s1, evs) =>
      match runPulls it fuel n s1 with
      | (os, evs2, s2) => (o :: os, evs ++ evs2, s2)

/-- Number of close-action invocations recorded in an event trace. -/
def closeCount (evs : List (Ev β ε)) : Nat :=
  evs.countP fun e =>
    match e with
    | Ev.closeCall => true
    | _ => false

/-- The items yielded to the caller, in trace order. -/
def yields (evs : List (Ev β ε)) : List (Option β) :=
  evs.filterMap fun e =>
    match e with
    | Ev.yieldItem b => some b
    | _ => none

/-- First raw item of a list on which `g` is not the sentinel, together with
the rest of the list after it (used to characterise one `skip_none` pull). -/
def firstSome (g : α → Option β) : List α → Option (β × List α)
  | [] => none
  | a :: rest =>
    match g a with
    | some b => some (b, rest)
    | none => firstSome g rest

/-- State of a KServe model as far as this module observes it: its name and
its readiness flag. -/
structure KServeModelState where
  name : String
  ready : Bool
deriving DecidableEq

/-- Modelled from the spec: `BaseKServeModel.__init__` is repository code not
under `src/` (only its subclass is).  Per the spec, readiness lifecycle is
the backend's own concern and base construction only records the model name,
leaving the model not ready until some load phase. -/
def BaseKServeModel.init (name : String) : KServeModelState :=
  { name := name, ready := false }

/-- `OpenAIModel.__init__`: call the base constructor, then set
`self.ready = True` (the `load()` method is unsupported, the model is assumed
ready). -/
def OpenAIModel.init (name : String) : KServeModelState :=
  { BaseKServeModel.init name with ready := true }

/-- Adapter used for the C2 evaluation: identity mapper, a registered close
action, over an already-exhausted producer. -/
def itC2 : AsyncMappingIterator Nat Nat Nat :=
  { mapper := fun a => Except.ok (some a), skip_none := true,
    close := some (Except.ok ()), tail := PullResult.stop }

/-- Adapter used for the C3 counterexample: a mapper that raises `7` on every
item, and a registered close action. -/
def itC3 : AsyncMappingIterator Nat Nat Nat :=
  { mapper := fun _ => Except.error 7, skip_none := true,
    close := some (Except.ok ()), tail := PullResult.stop }

/-- Adapter used for the C4 counterexample: identity mapper, a registered
close action, over an already-exhausted producer. -/
def itC4 : AsyncMappingIterator Nat Nat Nat :=
  { mapper := fun a => Except.ok (some a), skip_none := true,
    close := some (Except.ok ()), tail := PullResult.stop }

/-- Adapter used for the C7 counterexample: a close action that itself raises
`5`, over an already-exhausted producer. -/
def itC7 : AsyncMappingIterator Nat Nat Nat :=
  { mapper := fun a => Except.ok (some a), skip_none := true,
    close := some (Except.error 5), tail := PullResult.stop }

/-- Adapter used for the C8 counterexample: identity mapper and no close
action; the interesting behaviour is in the producer script. -/
def itC8 : AsyncMappingIterator Nat Nat Nat :=
  { mapper := fun a => Except.ok (some a), skip_none := true,
    close := none, tail := PullResult.stop }

/-- Adapter used for the C7 witness: identity mapper and a registered,
non-raising close action, over an already-exhausted producer. -/
def itC7ok : AsyncMappingIterator Nat Nat Nat :=
  { mapper := fun a => Except.ok (some a), skip_none := true,
    close := some (Except.ok ()), tail := PullResult.stop }

/-- Adapter used for the C10 witness: a mapper that raises `3`, and a close
action that itself raises `5`. -/
def itC10 : AsyncMappingIterator Nat Nat Nat :=
  { mapper := fun _ => Except.error 3, skip_none := true,
    close := some (Except.error 5), tail := PullResult.stop }

/-- Unfolding lemma: one pull whose script head is an item mapped to a
non-sentinel value yields that value, whatever `skip_none` is. -/
theorem anext_item_some {it : AsyncMappingIterator α β ε} {a : α} {v : β}
    (s : List (PullResult α ε)) (fuel : Nat)
    (h : it.mapper a = Except.ok (some v)) :
    anext it (fuel + 1) (PullResult.item a :: s) =
      (PullOutcome.yieldItem (some v), s, []) := by
  simp [anext, anextInner, producerNext, h]

/-- Unfolding lemma: with `skip_none` set, a pull whose script head is an
item mapped to the sentinel continues as a pull on the rest of the script
with one unit of fuel spent. -/
theorem anext_item_skip {it : AsyncMappingIterator α β ε} {a : α}
    (s : List (PullResult α ε)) (fuel : Nat)
    (h : it.mapper a = Except.ok none) (hsk : it.skip_none = true) :
    anext it (fuel + 1) (PullResult.item a :: s) = anext it fuel s := by
  rcases h2 : anext it fuel s with ⟨o, s2, evs2⟩
  simp [anext, anextInner, producerNext, h, hsk, h2]

/-- Unfolding lemma: with `skip_none` unset, a sentinel-mapped item is
returned to the caller as Python `None`. -/
theorem anext_item_none {it : AsyncMappingIterator α β ε} {a : α}
    (s : List (PullResult α ε)) (fuel : Nat)
    (h : it.mapper a = Except.ok none) (hsk : it.skip_none = false) :
    anext it (fuel + 1) (PullResult.item a :: s) =
      (PullOutcome.yieldItem none, s, []) := by
  simp [anext, anextInner, producerNext, h, hsk]

/-- Unfolding lemma: a pull on an empty script behaves like a pull on the
one-element script holding the producer's `tail` behaviour. -/
theorem anext_nil (it : AsyncMappingIterator α β ε) (fuel : Nat) :
    anext it (fuel + 1) [] = anext it (fuel + 1) [it.tail] := by
  simp [anext, anextInner, producerNext]

/-- Unfolding lemma: producer failure with a registered, non-raising close
action — the close action is invoked and the original failure propagates. -/
theorem anext_err_closeOk {it : AsyncMappingIterator α β ε} {e : ε}
    (s : List (PullResult α ε)) (fuel : Nat)
    (hc : it.close = some (Except.ok ())) :
    anext it (fuel + 1) (PullResult.error e :: s) =
      (PullOutcome.raised e, s, [Ev.closeCall]) := by
  simp [anext, anextInner, producerNext, handleExc, hc]

/-- Unfolding lemma: producer failure with no registered close action — the
failure propagates with no close event. -/
theorem anext_err_closeNone {it : AsyncMappingIterator α β ε} {e : ε}
    (s : List (PullResult α ε)) (fuel : Nat) (hc : it.close = none) :
    anext it (fuel + 1) (PullResult.error e :: s) =
      (PullOutcome.raised e, s, []) := by
  simp [anext, anextInner, producerNext, handleExc, hc]

/-- Unfolding lemma: producer failure with a close action that itself raises
`c` — the close action is invoked once and `c` replaces the original
failure. -/
theorem anext_err_closeRaise {it : AsyncMappingIterator α β ε} {c : ε}
    (e : ε) (s : List (PullResult α ε)) (fuel : Nat)
    (hc : it.close = some (Except.error c)) :
    anext it (fuel + 1) (PullResult.error e :: s) =
      (PullOutcome.raised c, s, [Ev.closeCall]) := by
  simp [anext, anextInner, producerNext, handleExc, hc]

/-- Unfolding lemma: producer exhaustion with a registered, non-raising close
action — the close action is invoked and `StopAsyncIteration` is re-raised,
stopping the adapter. -/
theorem anext_stop_closeOk {it : AsyncMappingIterator α β ε}
    (s : List (PullResult α ε)) (fuel : Nat)
    (hc : it.close = some (Except.ok ())) :
    anext it (fuel + 1) (PullResult.stop :: s) =
      (PullOutcome.stopIter, s, [Ev.closeCall]) := by
  simp [anext, anextInner, producerNext, handleExc, hc]

/-- Unfolding lemma: producer exhaustion with no registered close action. -/
theorem anext_stop_closeNone {it : AsyncMappingIterator α β ε}
    (s : List (PullResult α ε)) (fuel : Nat) (hc : it.close = none) :
    anext it (fuel + 1) (PullResult.stop :: s) =
      (PullOutcome.stopIter, s, []) := by
  simp [anext, anextInner, producerNext, handleExc, hc]

/-- Unfolding lemma: producer exhaustion with a close action that raises `c`
— the caller observes `c` instead of the end-of-sequence signal. -/
theorem anext_stop_closeRaise {it : AsyncMappingIterator α β ε} {c : ε}
    (s : List (PullResult α ε)) (fuel : Nat)
    (hc : it.close = some (Except.error c)) :
    anext it (fuel + 1) (PullResult.stop :: s) =
      (PullOutcome.raised c, s, [Ev.closeCall]) := by
  simp [anext, anextInner, producerNext, handleExc, hc]

/-- Unfolding lemma: mapper failure with a registered, non-raising close
action — the close action is invoked and the mapper's failure propagates. -/
theorem anext_mapErr_closeOk {it : AsyncMappingIterator α β ε} {a : α} {e : ε}
    (s : List (PullResult α ε)) (fuel : Nat)
    (h : it.mapper a = Except.error e) (hc : it.close = some (Except.ok ())) :
    anext it (fuel + 1) (PullResult.item a :: s) =
      (PullOutcome.raised e, s, [Ev.closeCall]) := by
  simp [anext, anextInner, producerNext, handleExc, h, hc]

/-- Unfolding lemma: mapper failure with a close action that raises `c` —
the caller observes `c`, not the mapper's failure. -/
theorem anext_mapErr_closeRaise {it : AsyncMappingIterator α β ε} {a : α} {c : ε}
    (e : ε) (s : List (PullResult α ε)) (fuel : Nat)
    (h : it.mapper a = Except.error e) (hc : it.close = some (Except.error c)) :
    anext it (fuel + 1) (PullResult.item a :: s) =
      (PullOutcome.raised c, s, [Ev.closeCall]) := by
  simp [anext, anextInner, producerNext, handleExc, h, hc]

/-- Unfolding lemma: a drive step on a pull that yields an item. -/
theorem drive_yield {it : AsyncMappingIterator α β ε} {fuel : Nat}
    {s s1 : List (PullResult α ε)} {b : Option β} {evs : List (Ev β ε)}
    (n : Nat) (h : anext it fuel s = (PullOutcome.yieldItem b, s1, evs)) :
    drive it fuel (n + 1) s =
      (evs ++ Ev.yieldItem b :: (drive it fuel n s1).1,
       (drive it fuel n s1).2.1, (drive it fuel n s1).2.2) := by
  rcases h2 : drive it fuel n s1 with ⟨evs2, d, s2⟩
  simp [drive, h, h2]

/-- Unfolding lemma: a drive step on a pull that raises `StopAsyncIteration`
ends the iteration. -/
theorem drive_stop {it : AsyncMappingIterator α β ε} {fuel : Nat}
    {s s1 : List (PullResult α ε)} {evs : List (Ev β ε)}
    (n : Nat) (h : anext it fuel s = (PullOutcome.stopIter, s1, evs)) :
    drive it fuel (n + 1) s = (evs ++ [Ev.stopSignal], DriveEnd.stopped, s1) := by
  simp [drive, h]

/-- Unfolding lemma: a drive step on a pull that raises a failure ends the
iteration with that failure. -/
theorem drive_raised {it : AsyncMappingIterator α β ε} {fuel : Nat}
    {s s1 : List (PullResult α ε)} {e : ε} {evs : List (Ev β ε)}
    (n : Nat) (h : anext it fuel s = (PullOutcome.raised e, s1, evs)) :
    drive it fuel (n + 1) s = (evs ++ [Ev.fail e], DriveEnd.failed e, s1) := by
  simp [drive, h]

/-- Unfolding lemma: one step of `runPulls`. -/
theorem runPulls_succ {it : AsyncMappingIterator α β ε} {fuel : Nat}
    {s s1 : List (PullResult α ε)} {o : PullOutcome β ε} {evs : List (Ev β ε)}
    (n : Nat) (h : anext it fuel s = (o, s1, evs)) :
    runPulls it fuel (n + 1) s =
      (o :: (runPulls it fuel n s1).1,
       evs ++ (runPulls it fuel n s1).2.1, (runPulls it fuel n s1).2.2) := by
  rcases h2 : runPulls it fuel n s1 with ⟨os, evs2, s2⟩
  simp [runPulls, h, h2]

/-- The events of the exception handler contain at most one close
invocation. -/
theorem closeCount_handleExc (cl : Option (Except ε Unit)) (x : Exc ε) :
    closeCount ((handleExc cl x : Exc ε × List (Ev β ε)).2) ≤ 1 := by
  rcases cl with _ | r
  · exact Nat.zero_le 1
  · rcases r with u | c
    · exact Nat.le_refl 1
    · exact Nat.le_refl 1

/-- Splitting `closeCount` over an appended trace. -/
theorem closeCount_append (l1 l2 : List (Ev β ε)) :
    closeCount (l1 ++ l2) = closeCount l1 + closeCount l2 :=
  List.countP_append _ _ _

/-- A successful inner `next()` emits no events at all. -/
theorem anextInner_ok_evs {it : AsyncMappingIterator α β ε}
    {s : List (PullResult α ε)} {b : Option β} {s1 : List (PullResult α ε)}
    {evs : List (Ev β ε)}
    (h : anextInner it s = (InnerRes.ok b, s1, evs)) : evs = [] := by
  rcases hp : producerNext it s with ⟨r, s2⟩
  rcases r with a | _ | e
  · rcases hm : it.mapper a with b2 | e2
    · simp_all [anextInner]
    · rcases hc : it.close with _ | r2
      · simp_all [anextInner, handleExc]
      · rcases r2 with u | c <;> simp_all [anextInner, handleExc]
  · rcases hc : it.close with _ | r2
    · simp_all [anextInner, handleExc]
    · rcases r2 with u | c <;> simp_all [anextInner, handleExc]
  · rcases hc : it.close with _ | r2
    · simp_all [anextInner, handleExc]
    · rcases r2 with u | c <;> simp_all [anextInner, handleExc]

/-- The events of one inner `next()` contain at most one close invocation. -/
theorem anextInner_closeCount (it : AsyncMappingIterator α β ε)
    (s : List (PullResult α ε)) :
    closeCount (anextInner it s).2.2 ≤ 1 := by
  rcases hp : producerNext it s with ⟨r, s2⟩
  rcases r with a | _ | e
  · rcases hm : it.mapper a with e2 | b2
    · have h3 : closeCount
          ((handleExc it.close (Exc.exc e2) : Exc ε × List (Ev β ε)).2) ≤ 1 :=
        closeCount_handleExc _ _
      rcases hh : (handleExc it.close (Exc.exc e2) : Exc ε × List (Ev β ε)) with ⟨x, evs⟩
      rw [hh] at h3
      simpa [anextInner, hp, hm, hh] using h3
    · simp [anextInner, hp, hm, closeCount]
  · have h3 : closeCount
        ((handleExc it.close Exc.stopAsyncIteration : Exc ε × List (Ev β ε)).2) ≤ 1 :=
      closeCount_handleExc _ _
    rcases hh : (handleExc it.close Exc.stopAsyncIteration : Exc ε × List (Ev β ε)) with ⟨x, evs⟩
    rw [hh] at h3
    simpa [anextInner, hp, hh] using h3
  · have h3 : closeCount
        ((handleExc it.close (Exc.exc e) : Exc ε × List (Ev β ε)).2) ≤ 1 :=
      closeCount_handleExc _ _
    rcases hh : (handleExc it.close (Exc.exc e) : Exc ε × List (Ev β ε)) with ⟨x, evs⟩
    rw [hh] at h3
    simpa [anextInner, hp, hh] using h3

/-- C9: immediately after `OpenAIModel.__init__` with any name, the model's
`ready` flag is true — there is no separate load or warm-up phase. -/
theorem c9_ready_on_construction (name : String) :
    (OpenAIModel.init name).ready = true := rfl

/-- C1: when the underlying producer yields the raw items `items` and then
raises the failure `e`, iterating the adapter (mapper `f`, a registered
close action, any `skip_none` setting) yields exactly the mapped items in
producer order, then invokes the close action exactly once, then re-raises
the original failure `e` unchanged. -/
theorem c1_yields_then_close_then_reraise
    (items : List α) (f : α → β) (e : ε) (sk : Bool) (fuel : Nat) :
    drive
      { mapper := fun a => Except.ok (some (f a)), skip_none := sk,
        close := some (Except.ok ()), tail := PullResult.error e }
      (fuel + 1) (items.length + 1) (items.map PullResult.item) =
    (items.map (fun a => Ev.yieldItem (some (f a))) ++ [Ev.closeCall, Ev.fail e],
      DriveEnd.failed e, []) := by
  induction items with
  | nil =>
    have h0 : anext
        { mapper := fun a => Except.ok (some (f a)), skip_none := sk,
          close := some (Except.ok ()), tail := PullResult.error e }
        (fuel + 1) ([] : List (PullResult α ε)) =
        (PullOutcome.raised e, [], [Ev.closeCall]) := by
      rw [anext_nil]
      exact anext_err_closeOk [] fuel rfl
    simp only [List.map_nil, List.length_nil]
    rw [drive_raised 0 h0]
    rfl
  | cons a rest ih =>
    have h1 : anext
        { mapper := fun x => Except.ok (some (f x)), skip_none := sk,
          close := some (Except.ok ()), tail := PullResult.error e }
        (fuel + 1) (PullResult.item a :: rest.map PullResult.item) =
        (PullOutcome.yieldItem (some (f a)), rest.map PullResult.item, []) :=
      anext_item_some (rest.map PullResult.item) fuel rfl
    simp only [List.map_cons, List.length_cons]
    rw [drive_yield (rest.length + 1) h1, ih]
    simp

/-- C6: when the underlying producer yields the raw items `items` and then
terminates normally, and the mapper `f` never returns the sentinel, the
adapter yields exactly the mapped items in producer order and then signals
end-of-sequence. -/
theorem c6_in_order_then_stop
    (ε : Type) (items : List α) (f : α → β) (sk : Bool) (fuel : Nat) :
    drive
      ({ mapper := fun a => Except.ok (some (f a)), skip_none := sk,
         close := none, tail := PullResult.stop } : AsyncMappingIterator α β ε)
      (fuel + 1) (items.length + 1) (items.map PullResult.item) =
    (items.map (fun a => Ev.yieldItem (some (f a))) ++ [Ev.stopSignal],
      DriveEnd.stopped, []) := by
  induction items with
  | nil =>
    have h0 : anext
        ({ mapper := fun a => Except.ok (some (f a)), skip_none := sk,
           close := none, tail := PullResult.stop } : AsyncMappingIterator α β ε)
        (fuel + 1) ([] : List (PullResult α ε)) =
        (PullOutcome.stopIter, [], []) := by
      rw [anext_nil]
      exact anext_stop_closeNone [] fuel rfl
    simp only [List.map_nil, List.length_nil]
    rw [drive_stop 0 h0]
  | cons a rest ih =>
    have h1 : anext
        ({ mapper := fun x => Except.ok (some (f x)), skip_none := sk,
           close := none, tail := PullResult.stop } : AsyncMappingIterator α β ε)
        (fuel + 1) (PullResult.item a :: rest.map PullResult.item) =
        (PullOutcome.yieldItem (some (f a)), rest.map PullResult.item, []) :=
      anext_item_some (rest.map PullResult.item) fuel rfl
    simp only [List.map_cons, List.length_cons]
    rw [drive_yield (rest.length + 1) h1, ih]
    simp

/-- C2, evaluated at the failing input: on a producer that terminates
normally after zero items, the adapter does signal end-of-sequence, but the
registered close action is invoked once rather than never —
`StopAsyncIteration` is a subclass of `Exception`, so the `except Exception`
handler of the inner `next()` catches it and runs `self.close()` before
re-raising it, contrary to the code's own comment that it is not caught. -/
theorem c2_close_fires_on_normal_exhaustion :
    drive itC2 1 1 [] = ([Ev.closeCall, Ev.stopSignal], DriveEnd.stopped, [])
    ∧ closeCount (drive itC2 1 1 []).1 = 1 := ⟨rfl, rfl⟩

/-- C3, counterexample to the claim as stated: on a pull where the producer
yields an item but the mapper raises `7`, the adapter does invoke the
registered close action (one `Ev.closeCall` in the trace) before propagating
the mapper's failure — the mapper call sits inside the guarded `try`. -/
theorem c3_counterexample_close_fires_on_mapper_failure :
    drive itC3 1 1 [PullResult.item 0] =
      ([Ev.closeCall, Ev.fail 7], DriveEnd.failed 7, [])
    ∧ closeCount (drive itC3 1 1 [PullResult.item 0]).1 = 1 := ⟨rfl, rfl⟩

/-- C3 as amended: when the producer yields an item and the mapper raises
`e`, the adapter invokes the registered (non-raising) close action once and
then propagates the mapper's failure `e` to the caller — the same
close-then-rethrow treatment as a producer failure. -/
theorem c3_mapper_failure_closes_then_raises
    (it : AsyncMappingIterator α β ε) (a : α) (e : ε)
    (s : List (PullResult α ε)) (fuel n : Nat)
    (h : it.mapper a = Except.error e) (hc : it.close = some (Except.ok ())) :
    drive it (fuel + 1) (n + 1) (PullResult.item a :: s) =
      ([Ev.closeCall, Ev.fail e], DriveEnd.failed e, s) := by
  rw [drive_raised n (anext_mapErr_closeOk s fuel h hc)]
  rfl

/-- C3 amended-claim witness at a concrete input. -/
theorem c3_amended_witness :
    drive itC3 1 1 [PullResult.item 4] =
      ([Ev.closeCall, Ev.fail 7], DriveEnd.failed 7, []) :=
  c3_mapper_failure_closes_then_raises itC3 4 7 [] 0 0 rfl rfl

/-- C4, counterexample to the claim as stated: two pulls on an adapter whose
producer signalled end-of-sequence invoke the registered close action twice
in one lifetime — the code keeps no one-shot flag, so every failing or
exhausting pull runs the close action again. -/
theorem c4_counterexample_close_runs_twice :
    closeCount (runPulls itC4 1 2 []).2.1 = 2
    ∧ (runPulls itC4 1 2 []).1 = [PullOutcome.stopIter, PullOutcome.stopIter] :=
  ⟨rfl, rfl⟩

/-- C4 as amended: within any single `__anext__` call the close action is
invoked at most once (across a lifetime it is invoked once per pull whose
inner `next()` raises, so repeated pulls after failure or exhaustion invoke
it repeatedly). -/
theorem c4_close_at_most_once_per_pull (it : AsyncMappingIterator α β ε)
    (fuel : Nat) (s : List (PullResult α ε)) :
    closeCount (anext it fuel s).2.2 ≤ 1 := by
  induction fuel generalizing s with
  | zero => exact Nat.zero_le 1
  | succ fuel ih =>
    rcases h : anextInner it s with ⟨r, s1, evs⟩
    have hcc : closeCount evs ≤ 1 := by
      have h2 := anextInner_closeCount it s
      rw [h] at h2
      exact h2
    rcases r with b | x
    · have hevs : evs = [] := anextInner_ok_evs h
      subst hevs
      by_cases hskip : (it.skip_none && b.isNone) = true
      · rcases h2 : anext it fuel s1 with ⟨o, s2, evs2⟩
        have h3 := ih s1
        rw [h2] at h3
        simpa [anext, h, hskip, h2] using h3
      · simpa [anext, h, hskip] using hcc
    · rcases x with _ | e
      · simpa [anext, h] using hcc
      · simpa [anext, h] using hcc

/-- C7, counterexample to the claim as stated: an adapter over an exhausted
producer whose close action raises `5` does not signal end-of-sequence on a
subsequent pull — the caller observes the close action's failure instead. -/
theorem c7_counterexample_raising_close :
    (runPulls itC7 1 1 []).1 = [PullOutcome.raised 5]
    ∧ (PullOutcome.raised 5 : PullOutcome Nat Nat) ≠ PullOutcome.stopIter :=
  ⟨rfl, by decide⟩

/-- C7 as amended: when the underlying producer keeps signalling
end-of-sequence and the registered close action (if any) does not itself
raise, every subsequent pull on the adapter again signals end-of-sequence to
the caller. -/
theorem c7_exhausted_pulls_keep_stopping (it : AsyncMappingIterator α β ε)
    (n fuel : Nat) (ht : it.tail = PullResult.stop)
    (hc : it.close = none ∨ it.close = some (Except.ok ())) :
    (runPulls it (fuel + 1) n []).1 = List.replicate n PullOutcome.stopIter := by
  induction n with
  | zero => rfl
  | succ n ih =>
    have h1 : ∃ evs, anext it (fuel + 1) ([] : List (PullResult α ε)) =
        (PullOutcome.stopIter, [], evs) := by
      rcases hc with hc | hc
      · exact ⟨[], by rw [anext_nil, ht]; exact anext_stop_closeNone [] fuel hc⟩
      · exact ⟨[Ev.closeCall], by rw [anext_nil, ht]; exact anext_stop_closeOk [] fuel hc⟩
    rcases h1 with ⟨evs, h1⟩
    rw [runPulls_succ n h1]
    simp [ih, List.replicate_succ]

/-- C7 amended-claim witness at a concrete input. -/
theorem c7_amended_witness :
    (runPulls itC7ok 1 3 []).1 = List.replicate 3 PullOutcome.stopIter :=
  c7_exhausted_pulls_keep_stopping itC7ok 3 0 rfl (Or.inr rfl)

/-- C8, counterexample to the claim as stated: the adapter keeps no terminal
flag, so when the underlying producer yields a further item after having
raised a failure, the pull after the failed one yields that item to the
caller. -/
theorem c8_counterexample_item_after_failure :
    (runPulls itC8 1 2 [PullResult.error 3, PullResult.item 5]).1 =
      [PullOutcome.raised 3, PullOutcome.yieldItem (some 5)] := rfl

/-- C8 as amended: after end-of-sequence or a failure, no later pull yields
an item provided the underlying producer itself yields no further items
(here: it keeps signalling end-of-sequence); with a producer that yields
items after failing, the adapter forwards them. -/
theorem c8_no_item_when_producer_yields_none (it : AsyncMappingIterator α β ε)
    (fuel n : Nat) (ht : it.tail = PullResult.stop) :
    ∀ b : Option β, PullOutcome.yieldItem b ∉ (runPulls it fuel n []).1 := by
  induction n with
  | zero => intro b; simp [runPulls]
  | succ n ih =>
    have h1 : ∃ o evs, anext it fuel ([] : List (PullResult α ε)) = (o, [], evs)
        ∧ ∀ b2 : Option β, o ≠ PullOutcome.yieldItem b2 := by
      cases fuel with
      | zero => exact ⟨PullOutcome.spin, [], rfl, fun b2 h2 => by cases h2⟩
      | succ f =>
        rcases hc : it.close with _ | r
        · refine ⟨PullOutcome.stopIter, [], ?_, fun b2 h2 => by cases h2⟩
          rw [anext_nil, ht]
          exact anext_stop_closeNone [] f hc
        · rcases r with c | u
          · refine ⟨PullOutcome.raised c, [Ev.closeCall], ?_, fun b2 h2 => by cases h2⟩
            rw [anext_nil, ht]
            exact anext_stop_closeRaise [] f hc
          · cases u
            refine ⟨PullOutcome.stopIter, [Ev.closeCall], ?_, fun b2 h2 => by cases h2⟩
            rw [anext_nil, ht]
            exact anext_stop_closeOk [] f hc
    rcases h1 with ⟨o, evs, h1, ho⟩
    intro b
    rw [runPulls_succ n h1]
    show PullOutcome.yieldItem b ∉ o :: (runPulls it fuel n []).1
    intro hmem
    rcases List.mem_cons.mp hmem with h2 | h2
    · exact ho b h2.symm
    · exact ih b h2

/-- C8 amended-claim witness at a concrete input. -/
theorem c8_amended_witness :
    PullOutcome.yieldItem (some 0) ∉ (runPulls itC8 1 3 []).1 :=
  c8_no_item_when_producer_yields_none itC8 1 3 rfl (some 0)

/-- C10: when a pull fails — the producer raising `e`, or the mapper raising
`e` on a produced item — and the registered close action itself raises `c`,
the caller observes `c` (the close failure is not swallowed and replaces the
original failure), and the close action is invoked exactly once within that
pull. -/
theorem c10_close_failure_replaces_original (it : AsyncMappingIterator α β ε)
    (a : α) (e c : ε) (s : List (PullResult α ε)) (fuel : Nat)
    (hc : it.close = some (Except.error c)) :
    anext it (fuel + 1) (PullResult.error e :: s) =
      (PullOutcome.raised c, s, [Ev.closeCall])
    ∧ (it.mapper a = Except.error e →
        anext it (fuel + 1) (PullResult.item a :: s) =
          (PullOutcome.raised c, s, [Ev.closeCall])) :=
  ⟨anext_err_closeRaise e s fuel hc,
    fun h => anext_mapErr_closeRaise e s fuel h hc⟩

/-- C10 witness at a concrete input: the original failure is `3`, the close
action raises `5`, and the caller observes `5`. -/
theorem c10_witness :
    anext itC10 1 [PullResult.error 3] = (PullOutcome.raised 5, [], [Ev.closeCall])
    ∧ (itC10.mapper 0 = Except.error 3 →
        anext itC10 1 [PullResult.item 0] = (PullOutcome.raised 5, [], [Ev.closeCall])) :=
  c10_close_failure_replaces_original itC10 0 3 5 [] 0 rfl

/-- When no item maps to a non-sentinel value, the filtered mapping is
empty. -/
theorem firstSome_none_filterMap (g : α → Option β) (items : List α)
    (h : firstSome g items = none) : items.filterMap g = [] := by
  induction items with
  | nil => rfl
  | cons a rest ih =>
    cases hg : g a with
    | none =>
      simp only [firstSome, hg] at h
      simp [List.filterMap_cons, hg, ih h]
    | some b =>
      simp [firstSome, hg] at h

/-- Splitting a list at its first non-sentinel mapped item: the filtered
mapping starts with that item, and the remainder is strictly shorter. -/
theorem firstSome_some_split (g : α → Option β) (items rest : List α) (b : β)
    (h : firstSome g items = some (b, rest)) :
    items.filterMap g = b :: rest.filterMap g ∧ rest.length < items.length := by
  induction items generalizing rest with
  | nil => cases h
  | cons a rest2 ih =>
    cases hg : g a with
    | none =>
      simp only [firstSome, hg] at h
      rcases ih rest h with ⟨h1, h2⟩
      refine ⟨by simp [List.filterMap_cons, hg, h1], ?_⟩
      simp only [List.length_cons]
      omega
    | some b2 =>
      simp only [firstSome, hg, Option.some.injEq, Prod.mk.injEq] at h
      rcases h with ⟨h1, h2⟩
      subst h1
      subst h2
      refine ⟨by simp [List.filterMap_cons, hg], ?_⟩
      simp only [List.length_cons]
      omega

/-- One `skip_none` pull over a script of raw items with a pure,
sentinel-capable mapper and no close action: it yields the first
non-sentinel mapped item, or stops if there is none. -/
theorem anext_items (it : AsyncMappingIterator α β ε) (g : α → Option β)
    (hm : ∀ a, it.mapper a = Except.ok (g a)) (hsk : it.skip_none = true)
    (ht : it.tail = PullResult.stop) (hc : it.close = none) :
    ∀ (items : List α) (fuel : Nat), items.length < fuel →
      anext it fuel (items.map PullResult.item) =
        match firstSome g items with
        | some (b, rest) =>
          (PullOutcome.yieldItem (some b), rest.map PullResult.item, [])
        | none => (PullOutcome.stopIter, [], []) := by
  intro items
  induction items with
  | nil =>
    intro fuel hf
    cases fuel with
    | zero => omega
    | succ f =>
      rw [List.map_nil, anext_nil, ht]
      exact anext_stop_closeNone [] f hc
  | cons a rest ih =>
    intro fuel hf
    cases fuel with
    | zero => omega
    | succ f =>
      cases hg : g a with
      | some b =>
        rw [List.map_cons,
          anext_item_some (rest.map PullResult.item) f
            ((hm a).trans (by rw [hg]))]
        simp [firstSome, hg]
      | none =>
        rw [List.map_cons,
          anext_item_skip (rest.map PullResult.item) f
            ((hm a).trans (by rw [hg])) hsk]
        have hf2 : rest.length < f := by
          simp only [List.length_cons] at hf
          omega
        rw [ih f hf2]
        simp [firstSome, hg]

/-- Iterating the adapter to completion over a script of raw items with a
pure, sentinel-capable mapper, `skip_none` set, and no close action: the
trace is exactly the non-sentinel mapped items in producer order followed by
the end-of-sequence signal. -/
theorem drive_items (it : AsyncMappingIterator α β ε) (g : α → Option β)
    (hm : ∀ a, it.mapper a = Except.ok (g a)) (hsk : it.skip_none = true)
    (ht : it.tail = PullResult.stop) (hc : it.close = none) :
    ∀ (n : Nat) (items : List α) (fuel : Nat), items.length < fuel →
      items.length < n →
      drive it fuel n (items.map PullResult.item) =
        ((items.filterMap g).map (fun b => Ev.yieldItem (some b)) ++ [Ev.stopSignal],
          DriveEnd.stopped, []) := by
  intro n
  induction n with
  | zero =>
    intro items fuel h1 h2
    omega
  | succ n ih =>
    intro items fuel h1 h2
    have h3 := anext_items it g hm hsk ht hc items fuel h1
    cases hfs : firstSome g items with
    | none =>
      rw [hfs] at h3
      rw [drive_stop n h3, firstSome_none_filterMap g items hfs]
      simp
    | some p =>
      rcases p with ⟨b, rest⟩
      rw [hfs] at h3
      rcases firstSome_some_split g items rest b hfs with ⟨hfm, hlen⟩
      rw [drive_yield n h3, ih rest fuel (by omega) (by omega), hfm]
      simp

/-- Bookkeeping: the non-sentinel mapped items and the sentinel-mapped items
partition the producer sequence. -/
theorem filterMap_length_add_sentinel_count (g : α → Option β) (items : List α) :
    (items.filterMap g).length + (items.countP fun a => (g a).isNone) =
      items.length := by
  induction items with
  | nil => rfl
  | cons a rest ih =>
    cases hg : g a <;>
      simp [List.filterMap_cons, List.countP_cons, hg] <;> omega

/-- C5: with `skip_none` set and a mapper `g` that may return the sentinel,
the adapter yields exactly the non-sentinel mapped items in producer order
(then signals end-of-sequence), and the number of suppressed items equals
the number of sentinel-mapped items. -/
theorem c5_skip_none_filters_sentinels
    (ε : Type) (items : List α) (g : α → Option β) :
    drive
      ({ mapper := fun a => Except.ok (g a), skip_none := true,
         close := none, tail := PullResult.stop } : AsyncMappingIterator α β ε)
      (items.length + 1) (items.length + 1) (items.map PullResult.item) =
      ((items.filterMap g).map (fun b => Ev.yieldItem (some b)) ++ [Ev.stopSignal],
        DriveEnd.stopped, [])
    ∧ (items.filterMap g).length + (items.countP fun a => (g a).isNone) =
        items.length :=
  ⟨drive_items
      ({ mapper := fun a => Except.ok (g a), skip_none := true,
         close := none, tail := PullResult.stop } : AsyncMappingIterator α β ε)
      g (fun _ => rfl) rfl rfl rfl
      (items.length + 1) items (items.length + 1)
      (Nat.lt_succ_self _) (Nat.lt_succ_self _),
    filterMap_length_add_sentinel_count g items⟩
